import Mathlib

/-!
Shallow embedding of `src/Betting_game.py`: a Monte Carlo betting-game
simulator with a two-phase staking strategy.  Real-valued quantities are
modelled as rationals, Python integers as `ℤ`, and the stream of
`random.random()` draws as an explicit function `ℕ → ℚ` so that one trial is
a pure function of the configuration and the sample stream.
-/

namespace BettingGame

/-- Embedding of the `GameConfig` dataclass (Betting_game.py lines 16-26). -/
structure GameConfig where
  initial_stake : ℚ := 100
  total_games : ℤ := 100
  win_chance : ℚ := 51 / 100
  bet_percent : ℚ := 1 / 5
  payout_ratio : ℚ := 2
  strategy_switch_point : ℤ := 33
  num_simulations : ℤ := 5000
deriving DecidableEq

/-- Embedding of `GameConfig.validate` (lines 28-41): the chain of `if`
checks, each raising `ValueError` with the given message. -/
def GameConfig.validate (c : GameConfig) : Except String Unit :=
  if c.initial_stake ≤ 0 then Except.error "Initial stake must be positive"
  else if ¬ (0 < c.win_chance ∧ c.win_chance < 1) then
    Except.error "Win chance must be between 0 and 1"
  else if ¬ (0 < c.bet_percent ∧ c.bet_percent ≤ 1) then
    Except.error "Bet percent must be between 0 and 1"
  else if c.payout_ratio ≤ 0 then Except.error "Payout ratio must be positive"
  else if c.total_games ≤ 0 then Except.error "Total games must be positive"
  else if c.num_simulations ≤ 0 then
    Except.error "Number of simulations must be positive"
  else Except.ok ()

/-- The conjunction of the §3 field constraints that `validate` enforces. -/
abbrev ValidCfg (c : GameConfig) : Prop :=
  0 < c.initial_stake ∧ (0 < c.win_chance ∧ c.win_chance < 1) ∧
    (0 < c.bet_percent ∧ c.bet_percent ≤ 1) ∧ 0 < c.payout_ratio ∧
    0 < c.total_games ∧ 0 < c.num_simulations

/-- Embedding of `BettingSimulator._calculate_bet` (lines 86-102). -/
def calculate_bet (c : GameConfig) (current_stake : ℚ)
    (remaining_games : ℤ) : ℚ :=
  if remaining_games > c.strategy_switch_point then
    current_stake / (remaining_games : ℚ)
  else
    current_stake * c.bet_percent

/-- One loop iteration of `run_one_simulation` (lines 66-78) without the
bankruptcy check: at game index `g` the bet is computed for
`remaining_games = total_games - g`, one sample is drawn, and the stake is
updated by the win/lose rule. -/
def stepStake (c : GameConfig) (samples : ℕ → ℚ) (g : ℕ) (stake : ℚ) : ℚ :=
  let bet := calculate_bet c stake (c.total_games - (g : ℤ))
  if samples g < c.win_chance then stake + bet * (c.payout_ratio - 1)
  else stake - bet

/-- The stake after `g` games when no bankruptcy check interrupts the loop:
the reference trajectory that `run_one_simulation` follows while positive. -/
def rawStake (c : GameConfig) (samples : ℕ → ℚ) : ℕ → ℚ
  | 0 => c.initial_stake
  | g + 1 => stepStake c samples g (rawStake c samples g)

/-- The loop of `run_one_simulation` (lines 64-84): `fuel` iterations remain,
`game` is the Python loop index (also the count of samples consumed so far).
Returns the final stake together with the number of games played, i.e. the
number of samples consumed. -/
def runAux (c : GameConfig) (samples : ℕ → ℚ) :
    ℕ → ℕ → ℚ → ℚ × ℕ
  | 0, game, stake => (stake, game)
  | fuel + 1, game, stake =>
    if stepStake c samples game stake ≤ 0 then (0, game + 1)
    else runAux c samples fuel (game + 1) (stepStake c samples game stake)

/-- Embedding of `BettingSimulator.run_one_simulation` (lines 57-84): run the
loop for `total_games` iterations from the initial stake.  First component is
the returned final stake, second the number of samples consumed. -/
def run_one_simulation (c : GameConfig) (samples : ℕ → ℚ) : ℚ × ℕ :=
  runAux c samples c.total_games.toNat 0 c.initial_stake

/-- Embedding of `BettingSimulator` and its `__init__` (lines 47-55):
construction validates the configuration and stores it; an invalid
configuration raises before a simulator exists. -/
structure BettingSimulator where
  config : GameConfig
deriving DecidableEq

/-- `BettingSimulator(config)`: `config.validate()` runs first; if it raises,
no simulator is produced. -/
def BettingSimulator.make (c : GameConfig) : Except String BettingSimulator :=
  match c.validate with
  | Except.ok () => Except.ok ⟨c⟩
  | Except.error e => Except.error e

/-- Embedding of `BettingSimulator.run_simulations` (lines 104-119): the
driver runs `num_simulations` independent trials, trial `i` drawing from the
stream `samples i`, and collects the final stakes in trial order. -/
def run_simulations (c : GameConfig) (samples : ℕ → ℕ → ℚ) : List ℚ :=
  (List.range c.num_simulations.toNat).map
    fun i => (run_one_simulation c (samples i)).1

/-- Insertion step for sorting (model of Python `sorted`). -/
def insertLe (x : ℚ) : List ℚ → List ℚ
  | [] => [x]
  | y :: ys => if x ≤ y then x :: y :: ys else y :: insertLe x ys

/-- Insertion sort on rationals (model of Python `sorted`). -/
def sortQ : List ℚ → List ℚ
  | [] => []
  | x :: xs => insertLe x (sortQ xs)

/-- Python `statistics.median`: middle element of the sorted list for odd
length, average of the two middle elements for even length. -/
def median (l : List ℚ) : ℚ :=
  let s := sortQ l
  let n := l.length
  if n % 2 = 1 then s.getD (n / 2) 0
  else (s.getD (n / 2 - 1) 0 + s.getD (n / 2) 0) / 2

/-- Embedding of `SimulationAnalyzer.calculate_statistics` (lines 136-148)
applied to the analyzer's `final_stakes` list: returns
`(average, median, bust_rate, bust_count)`. -/
def calculate_statistics (final_stakes : List ℚ) : ℚ × ℚ × ℚ × ℕ :=
  let average := final_stakes.sum / (final_stakes.length : ℚ)
  let med := median final_stakes
  let bust_count := final_stakes.countP (fun stake => decide (stake = 0))
  let bust_rate := ((bust_count : ℚ) / (final_stakes.length : ℚ)) * 100
  (average, med, bust_rate, bust_count)

/-- Concrete configuration of the spec's scenario 3: two games, pure
aggressive play (`strategy_switch_point = 0`). -/
def cfg9 : GameConfig :=
  { initial_stake := 100, total_games := 2, win_chance := 51 / 100,
    bet_percent := 1 / 5, payout_ratio := 2, strategy_switch_point := 0,
    num_simulations := 1 }

/-- Concrete configuration with `strategy_switch_point = total_games = 2`. -/
def cfg4 : GameConfig :=
  { initial_stake := 100, total_games := 2, win_chance := 51 / 100,
    bet_percent := 1 / 5, payout_ratio := 2, strategy_switch_point := 2,
    num_simulations := 1 }

/-- Concrete invalid configuration: `win_chance = 0` violates `0 < p < 1`. -/
def cfgBad : GameConfig :=
  { initial_stake := 100, total_games := 2, win_chance := 0,
    bet_percent := 1 / 5, payout_ratio := 2, strategy_switch_point := 0,
    num_simulations := 1 }

/-- A sample stream that always lands on a loss (`0.99 ≥ win_chance`). -/
def lossSamples : ℕ → ℚ := fun _ => 99 / 100

/-- `validate` succeeds exactly when every §3 field constraint holds. -/
lemma validate_ok_iff (c : GameConfig) :
    c.validate = Except.ok () ↔ ValidCfg c := by
  constructor
  · intro h
    unfold GameConfig.validate at h
    split_ifs at h with h1 h2 h3 h4 h5 h6
    exact ⟨not_le.mp h1, h2, h3, not_le.mp h4, not_le.mp h5, not_le.mp h6⟩
  · rintro ⟨hA, hB, hC, hD, hE, hF⟩
    unfold GameConfig.validate
    rw [if_neg (not_le.mpr hA), if_neg (not_not_intro hB),
      if_neg (not_not_intro hC), if_neg (not_le.mpr hD),
      if_neg (not_le.mpr hE), if_neg (not_le.mpr hF)]

/-- While every intermediate stake stays positive, the loop of
`run_one_simulation` follows the reference trajectory `rawStake` and plays
all its remaining games. -/
lemma runAux_spec (c : GameConfig) (samples : ℕ → ℚ) :
    ∀ (fuel g : ℕ),
      (∀ k, g ≤ k → k < g + fuel → 0 < rawStake c samples (k + 1)) →
      runAux c samples fuel g (rawStake c samples g)
        = (rawStake c samples (g + fuel), g + fuel)
  | 0, g, _ => by simp [runAux]
  | fuel + 1, g, h => by
    have hg1 : 0 < rawStake c samples (g + 1) := h g le_rfl (by omega)
    have hstep : stepStake c samples g (rawStake c samples g)
        = rawStake c samples (g + 1) := rfl
    unfold runAux
    rw [hstep, if_neg (not_le.mpr hg1)]
    have ih := runAux_spec c samples fuel (g + 1)
      (fun k hk1 hk2 => h k (by omega) (by omega))
    rw [ih, show g + 1 + fuel = g + (fuel + 1) by omega]

/-- If the first non-positive stake on the reference trajectory occurs right
after game `n`, the loop of `run_one_simulation` returns `0` immediately
after playing game `n`, having consumed exactly `n + 1` samples. -/
lemma runAux_bankrupt (c : GameConfig) (samples : ℕ → ℚ) :
    ∀ (fuel g n : ℕ), g ≤ n → n < g + fuel →
      (∀ k, g ≤ k → k < n → 0 < rawStake c samples (k + 1)) →
      rawStake c samples (n + 1) ≤ 0 →
      runAux c samples fuel g (rawStake c samples g) = (0, n + 1)
  | 0, g, n, h1, h2, _, _ => absurd h2 (by omega)
  | fuel + 1, g, n, h1, h2, hpos, hneg => by
    have hstep : stepStake c samples g (rawStake c samples g)
        = rawStake c samples (g + 1) := rfl
    rcases eq_or_lt_of_le h1 with hgn | hgn
    · subst hgn
      unfold runAux
      rw [hstep, if_pos hneg]
    · have hg1 : 0 < rawStake c samples (g + 1) := hpos g le_rfl hgn
      unfold runAux
      rw [hstep, if_neg (not_le.mpr hg1)]
      exact runAux_bankrupt c samples fuel (g + 1) n (by omega) (by omega)
        (fun k hk1 hk2 => hpos k (by omega) hk2) hneg

/-- C1: for every valid configuration and sample stream, `run_one_simulation`
returns a non-negative value; it returns exactly `0` iff the stake dropped to
`≤ 0` at some game boundary; every non-zero return is strictly positive; and
at the first such drop (after game `n`) the trial stops immediately, having
consumed exactly `n + 1` samples. -/
theorem run_trial_range (c : GameConfig) (samples : ℕ → ℚ) (hv : ValidCfg c) :
    0 ≤ (run_one_simulation c samples).1 ∧
    ((run_one_simulation c samples).1 = 0 ↔
      ∃ n, n < c.total_games.toNat ∧ rawStake c samples (n + 1) ≤ 0) ∧
    ((run_one_simulation c samples).1 ≠ 0 →
      0 < (run_one_simulation c samples).1) ∧
    (∀ n, n < c.total_games.toNat → rawStake c samples (n + 1) ≤ 0 →
      (∀ m, m < n → 0 < rawStake c samples (m + 1)) →
      run_one_simulation c samples = (0, n + 1)) := by
  have hT : 0 < c.total_games.toNat := by
    have := hv.2.2.2.2.1; omega
  have hbank : ∀ n, n < c.total_games.toNat → rawStake c samples (n + 1) ≤ 0 →
      (∀ m, m < n → 0 < rawStake c samples (m + 1)) →
      run_one_simulation c samples = (0, n + 1) := by
    intro n hn hneg hpos
    have h0 : rawStake c samples 0 = c.initial_stake := rfl
    unfold run_one_simulation
    rw [← h0]
    exact runAux_bankrupt c samples c.total_games.toNat 0 n (by omega)
      (by omega) (fun k _ hk => hpos k hk) hneg
  refine ⟨?_, ?_, ?_, hbank⟩ <;>
    (by_cases hex : ∃ n, n < c.total_games.toNat ∧
        rawStake c samples (n + 1) ≤ 0)
  case pos =>
    obtain ⟨hnT, hnneg⟩ := Nat.find_spec hex
    have hmin : ∀ m, m < Nat.find hex → 0 < rawStake c samples (m + 1) := by
      intro m hm
      have hne := Nat.find_min hex hm
      push_neg at hne
      exact hne (by omega)
    rw [hbank (Nat.find hex) hnT hnneg hmin]
  case pos =>
    obtain ⟨hnT, hnneg⟩ := Nat.find_spec hex
    have hmin : ∀ m, m < Nat.find hex → 0 < rawStake c samples (m + 1) := by
      intro m hm
      have hne := Nat.find_min hex hm
      push_neg at hne
      exact hne (by omega)
    rw [hbank (Nat.find hex) hnT hnneg hmin]
    exact iff_of_true rfl ⟨Nat.find hex, hnT, hnneg⟩
  case pos =>
    obtain ⟨hnT, hnneg⟩ := Nat.find_spec hex
    have hmin : ∀ m, m < Nat.find hex → 0 < rawStake c samples (m + 1) := by
      intro m hm
      have hne := Nat.find_min hex hm
      push_neg at hne
      exact hne (by omega)
    rw [hbank (Nat.find hex) hnT hnneg hmin]
    intro h
    exact absurd rfl h
  all_goals
    push_neg at hex
  all_goals
    have hrun : run_one_simulation c samples
        = (rawStake c samples c.total_games.toNat, c.total_games.toNat) := by
      unfold run_one_simulation
      have h0 : rawStake c samples 0 = c.initial_stake := rfl
      rw [← h0]
      have hs := runAux_spec c samples c.total_games.toNat 0
        (fun k _ hk => hex k (by omega))
      simpa using hs
    have hTpos : 0 < rawStake c samples c.total_games.toNat := by
      have hlast := hex (c.total_games.toNat - 1) (by omega)
      rwa [show c.total_games.toNat - 1 + 1 = c.total_games.toNat by omega]
        at hlast
  · rw [hrun]; exact hTpos.le
  · rw [hrun]
    constructor
    · intro h
      exact absurd h hTpos.ne'
    · rintro ⟨n, hn, hneg⟩
      exact absurd hneg (not_le.mpr (hex n hn))
  · rw [hrun]
    exact fun _ => hTpos

/-- Witness for C1 at the scenario-3 configuration with forced losses. -/
theorem run_trial_range_witness :
    0 ≤ (run_one_simulation cfg9 lossSamples).1 ∧
    ((run_one_simulation cfg9 lossSamples).1 = 0 ↔
      ∃ n, n < cfg9.total_games.toNat ∧
        rawStake cfg9 lossSamples (n + 1) ≤ 0) ∧
    ((run_one_simulation cfg9 lossSamples).1 ≠ 0 →
      0 < (run_one_simulation cfg9 lossSamples).1) ∧
    (∀ n, n < cfg9.total_games.toNat → rawStake cfg9 lossSamples (n + 1) ≤ 0 →
      (∀ m, m < n → 0 < rawStake cfg9 lossSamples (m + 1)) →
      run_one_simulation cfg9 lossSamples = (0, n + 1)) :=
  run_trial_range cfg9 lossSamples (by norm_num [ValidCfg, cfg9])

/-- C2: with `remaining = total_games - g`, a game bets
`current_stake / remaining` when `remaining > strategy_switch_point` and
`current_stake * bet_percent` when `remaining ≤ strategy_switch_point`; the
boundary `remaining = strategy_switch_point` uses the conservative rule. -/
theorem calculate_bet_phase (c : GameConfig) (stake : ℚ) (g : ℕ) :
    (c.strategy_switch_point < c.total_games - (g : ℤ) →
      calculate_bet c stake (c.total_games - (g : ℤ))
        = stake / ((c.total_games - (g : ℤ) : ℤ) : ℚ)) ∧
    (c.total_games - (g : ℤ) ≤ c.strategy_switch_point →
      calculate_bet c stake (c.total_games - (g : ℤ))
        = stake * c.bet_percent) ∧
    calculate_bet c stake c.strategy_switch_point = stake * c.bet_percent := by
  refine ⟨fun h => ?_, fun h => ?_, ?_⟩
  · rw [calculate_bet, if_pos h]
  · rw [calculate_bet, if_neg (not_lt.mpr h)]
  · rw [calculate_bet, if_neg (lt_irrefl _)]

/-- Witness for C2: at `cfg9` (switch point 0) game 0 of 2 is aggressive,
and at `cfg4` (switch point 2) game 0 of 2 is conservative. -/
theorem calculate_bet_phase_witness :
    calculate_bet cfg9 100 (cfg9.total_games - ((0 : ℕ) : ℤ))
        = 100 / ((cfg9.total_games - ((0 : ℕ) : ℤ) : ℤ) : ℚ) ∧
    calculate_bet cfg4 100 (cfg4.total_games - ((0 : ℕ) : ℤ))
        = 100 * cfg4.bet_percent :=
  ⟨(calculate_bet_phase cfg9 100 0).1 (by norm_num [cfg9]),
   (calculate_bet_phase cfg4 100 0).2.1 (by norm_num [cfg4])⟩

/-- C3: each game draws the sample at its own index; a sample below
`win_chance` updates the stake to
`current_stake + bet_amount * (payout_ratio - 1)`, and a sample `≥`
`win_chance` updates it to `current_stake - bet_amount`; the trial trajectory
applies exactly this update at every game. -/
theorem game_update_rule (c : GameConfig) (samples : ℕ → ℚ) (g : ℕ)
    (stake : ℚ) :
    (samples g < c.win_chance →
      stepStake c samples g stake
        = stake + calculate_bet c stake (c.total_games - (g : ℤ))
            * (c.payout_ratio - 1)) ∧
    (c.win_chance ≤ samples g →
      stepStake c samples g stake
        = stake - calculate_bet c stake (c.total_games - (g : ℤ))) ∧
    rawStake c samples (g + 1) = stepStake c samples g (rawStake c samples g)
    := by
  refine ⟨fun h => ?_, fun h => ?_, rfl⟩
  · rw [stepStake, if_pos h]
  · rw [stepStake, if_neg (not_lt.mpr h)]

/-- Witness for C3: at `cfg9` with the all-loss stream, game 0 is a loss. -/
theorem game_update_rule_witness :
    stepStake cfg9 lossSamples 0 100
      = 100 - calculate_bet cfg9 100 (cfg9.total_games - ((0 : ℕ) : ℤ)) :=
  (game_update_rule cfg9 lossSamples 0 100).2.1
    (by norm_num [cfg9, lossSamples])

/-- C4 counterexample: the claim as stated is false.  With
`strategy_switch_point = total_games = 2` (`cfg4`) the first game has
`remaining = 2 ≤ strategy_switch_point`, so the code bets the fixed percent
`100 * (1/5) = 20`, not `100 / 2 = 50`; and with `strategy_switch_point = 0`
(`cfg9`) the first game has `remaining = 2 > 0`, so the code bets
`100 / 2 = 50`, not the fixed percent `20`. -/
theorem switch_edge_counterexample :
    cfg4.total_games ≤ cfg4.strategy_switch_point ∧
    calculate_bet cfg4 100 2 = 100 * cfg4.bet_percent ∧
    ¬ calculate_bet cfg4 100 2 = 100 / 2 ∧
    cfg4.strategy_switch_point ≤ cfg4.total_games ∧
    cfg9.strategy_switch_point ≤ 0 ∧
    calculate_bet cfg9 100 2 = 100 / 2 ∧
    ¬ calculate_bet cfg9 100 2 = 100 * cfg9.bet_percent := by
  norm_num [calculate_bet, cfg4, cfg9]

/-- C4 amended: when `strategy_switch_point ≥ total_games` the aggressive
phase never activates and every game bets `current_stake * bet_percent`;
when `strategy_switch_point ≤ 0` the conservative phase never activates and
every game bets `current_stake / remaining`. -/
theorem switch_edge_cases (c : GameConfig) (stake : ℚ) (g : ℕ)
    (hg : (g : ℤ) < c.total_games) :
    (c.total_games ≤ c.strategy_switch_point →
      calculate_bet c stake (c.total_games - (g : ℤ))
        = stake * c.bet_percent) ∧
    (c.strategy_switch_point ≤ 0 →
      calculate_bet c stake (c.total_games - (g : ℤ))
        = stake / ((c.total_games - (g : ℤ) : ℤ) : ℚ)) := by
  constructor
  · intro h
    rw [calculate_bet, if_neg (not_lt.mpr (by omega))]
  · intro h
    rw [calculate_bet, if_pos (by omega)]

/-- Witness for the amended C4 at `cfg4` (all-conservative) and game 0. -/
theorem switch_edge_cases_witness :
    (cfg4.total_games ≤ cfg4.strategy_switch_point →
      calculate_bet cfg4 100 (cfg4.total_games - ((0 : ℕ) : ℤ))
        = 100 * cfg4.bet_percent) ∧
    (cfg4.strategy_switch_point ≤ 0 →
      calculate_bet cfg4 100 (cfg4.total_games - ((0 : ℕ) : ℤ))
        = 100 / ((cfg4.total_games - ((0 : ℕ) : ℤ) : ℤ) : ℚ)) :=
  switch_edge_cases cfg4 100 0 (by norm_num [cfg4])

/-- C5: under a valid configuration, at any game `g` of the series that is
entered with a positive stake, the bet is non-negative and never exceeds the
stake, and the post-game stake is at least `stake - bet ≥ 0`; the stake
entering the first game is positive. -/
theorem single_game_invariant (c : GameConfig) (samples : ℕ → ℚ) (g : ℕ)
    (hv : ValidCfg c) (hg : (g : ℤ) < c.total_games)
    (hpos : 0 < rawStake c samples g) :
    0 < rawStake c samples 0 ∧
    0 ≤ calculate_bet c (rawStake c samples g) (c.total_games - (g : ℤ)) ∧
    calculate_bet c (rawStake c samples g) (c.total_games - (g : ℤ))
      ≤ rawStake c samples g ∧
    rawStake c samples g
        - calculate_bet c (rawStake c samples g) (c.total_games - (g : ℤ))
      ≤ rawStake c samples (g + 1) ∧
    0 ≤ rawStake c samples g
        - calculate_bet c (rawStake c samples g) (c.total_games - (g : ℤ))
    := by
  obtain ⟨hA, ⟨hW1, hW2⟩, ⟨hP1, hP2⟩, hR, hT, hN⟩ := hv
  have h0 : (0 : ℚ) < rawStake c samples 0 := hA
  have hr1 : (1 : ℚ) ≤ ((c.total_games - (g : ℤ) : ℤ) : ℚ) := by
    have : (1 : ℤ) ≤ c.total_games - (g : ℤ) := by omega
    exact_mod_cast this
  have hbet0 :
      0 ≤ calculate_bet c (rawStake c samples g) (c.total_games - (g : ℤ)) ∧
      calculate_bet c (rawStake c samples g) (c.total_games - (g : ℤ))
        ≤ rawStake c samples g := by
    rw [calculate_bet]
    split_ifs
    · exact ⟨div_nonneg hpos.le (by linarith),
        div_le_self hpos.le hr1⟩
    · exact ⟨mul_nonneg hpos.le hP1.le,
        mul_le_of_le_one_right hpos.le hP2⟩
  refine ⟨h0, hbet0.1, hbet0.2, ?_, by linarith [hbet0.2]⟩
  have hstep : rawStake c samples (g + 1)
      = stepStake c samples g (rawStake c samples g) := rfl
  rw [hstep, stepStake]
  split_ifs
  · nlinarith [hbet0.1, hR]
  · simp

/-- Witness for C5 at `cfg9`, game 0, entering stake 100. -/
theorem single_game_invariant_witness :
    0 < rawStake cfg9 lossSamples 0 ∧
    0 ≤ calculate_bet cfg9 (rawStake cfg9 lossSamples 0)
        (cfg9.total_games - ((0 : ℕ) : ℤ)) ∧
    calculate_bet cfg9 (rawStake cfg9 lossSamples 0)
        (cfg9.total_games - ((0 : ℕ) : ℤ))
      ≤ rawStake cfg9 lossSamples 0 ∧
    rawStake cfg9 lossSamples 0
        - calculate_bet cfg9 (rawStake cfg9 lossSamples 0)
            (cfg9.total_games - ((0 : ℕ) : ℤ))
      ≤ rawStake cfg9 lossSamples (0 + 1) ∧
    0 ≤ rawStake cfg9 lossSamples 0
        - calculate_bet cfg9 (rawStake cfg9 lossSamples 0)
            (cfg9.total_games - ((0 : ℕ) : ℤ)) :=
  single_game_invariant cfg9 lossSamples 0 (by norm_num [ValidCfg, cfg9])
    (by norm_num [cfg9]) (by norm_num [rawStake, cfg9])

/-- C6: `validate` succeeds exactly when every §3 field constraint holds
(so `win_chance ∈ {0, 1}`, `bet_percent ∈ {0, 1.5}`, `payout_ratio = 0`,
`total_games = 0` and `num_simulations = 0` are all rejected); simulator
construction runs the validation and yields a simulator holding the
configuration exactly when it is valid, and yields an error — so no trial
can run — otherwise. -/
theorem configuration_validation (c : GameConfig) :
    (c.validate = Except.ok () ↔ ValidCfg c) ∧
    (∀ sim, BettingSimulator.make c = Except.ok sim ↔
      (ValidCfg c ∧ sim = ⟨c⟩)) ∧
    (¬ ValidCfg c → ∃ msg, BettingSimulator.make c = Except.error msg) := by
  refine ⟨validate_ok_iff c, fun sim => ?_, fun hv => ?_⟩
  · rw [BettingSimulator.make]
    rcases hval : c.validate with msg | u
    · simp only [reduceCtorEq, false_iff, not_and]
      intro hvc
      exact absurd ((validate_ok_iff c).mpr hvc) (by rw [hval]; simp)
    · obtain ⟨⟩ := u
      have hvc := (validate_ok_iff c).mp hval
      simp only [Except.ok.injEq]
      constructor
      · intro h
        exact ⟨hvc, h.symm⟩
      · intro h
        exact h.2.symm
  · rw [BettingSimulator.make]
    rcases hval : c.validate with msg | u
    · exact ⟨msg, rfl⟩
    · obtain ⟨⟩ := u
      exact absurd ((validate_ok_iff c).mp hval) hv

/-- Witness for C6: `cfgBad` (`win_chance = 0`) is rejected at construction. -/
theorem configuration_validation_witness :
    ∃ msg, BettingSimulator.make cfgBad = Except.error msg :=
  (configuration_validation cfgBad).2.2 (by norm_num [ValidCfg, cfgBad])

/-- C7: on the driver's result sequence the statistics function returns the
arithmetic mean and the statistical median of the full sequence (zeros
included), a bankruptcy count equal to the number of results exactly `0`,
and a bankruptcy rate `bust_count / num_simulations * 100` lying in
`[0, 100]`; the sequence has length `num_simulations`. -/
theorem statistics_contract (c : GameConfig) (samples : ℕ → ℕ → ℚ)
    (hv : ValidCfg c) :
    (run_simulations c samples).length = c.num_simulations.toNat ∧
    (calculate_statistics (run_simulations c samples)).1
      = (run_simulations c samples).sum
          / ((run_simulations c samples).length : ℚ) ∧
    (calculate_statistics (run_simulations c samples)).2.1
      = median (run_simulations c samples) ∧
    (calculate_statistics (run_simulations c samples)).2.2.2
      = (run_simulations c samples).countP (fun stake => decide (stake = 0)) ∧
    (calculate_statistics (run_simulations c samples)).2.2.1
      = (((calculate_statistics (run_simulations c samples)).2.2.2 : ℚ)
          / (c.num_simulations.toNat : ℚ)) * 100 ∧
    0 ≤ (calculate_statistics (run_simulations c samples)).2.2.1 ∧
    (calculate_statistics (run_simulations c samples)).2.2.1 ≤ 100 := by
  have hlen : (run_simulations c samples).length
      = c.num_simulations.toNat := by
    simp [run_simulations]
  have hN : 0 < c.num_simulations.toNat := by
    have := hv.2.2.2.2.2; omega
  have hrate : (calculate_statistics (run_simulations c samples)).2.2.1
      = (((run_simulations c samples).countP
            (fun stake => decide (stake = 0)) : ℚ)
          / ((run_simulations c samples).length : ℚ)) * 100 := rfl
  have hcount : (run_simulations c samples).countP
        (fun stake => decide (stake = 0))
      ≤ (run_simulations c samples).length := List.countP_le_length _
  have hlenpos : (0 : ℚ) < ((run_simulations c samples).length : ℚ) := by
    rw [hlen]
    exact_mod_cast hN
  refine ⟨hlen, rfl, rfl, rfl, ?_, ?_, ?_⟩
  · rw [hrate, hlen]
    rfl
  · rw [hrate]
    positivity
  · rw [hrate]
    have hq : (((run_simulations c samples).countP
          (fun stake => decide (stake = 0)) : ℕ) : ℚ)
        / ((run_simulations c samples).length : ℚ) ≤ 1 := by
      rw [div_le_one hlenpos]
      exact_mod_cast hcount
    nlinarith [hq]

/-- Witness for C7 at `cfg9` with an all-loss sample family. -/
theorem statistics_contract_witness :
    (run_simulations cfg9 (fun _ _ => 99 / 100)).length
      = cfg9.num_simulations.toNat ∧
    (calculate_statistics (run_simulations cfg9 (fun _ _ => 99 / 100))).1
      = (run_simulations cfg9 (fun _ _ => 99 / 100)).sum
          / ((run_simulations cfg9 (fun _ _ => 99 / 100)).length : ℚ) ∧
    (calculate_statistics (run_simulations cfg9 (fun _ _ => 99 / 100))).2.1
      = median (run_simulations cfg9 (fun _ _ => 99 / 100)) ∧
    (calculate_statistics (run_simulations cfg9 (fun _ _ => 99 / 100))).2.2.2
      = (run_simulations cfg9 (fun _ _ => 99 / 100)).countP
          (fun stake => decide (stake = 0)) ∧
    (calculate_statistics (run_simulations cfg9 (fun _ _ => 99 / 100))).2.2.1
      = (((calculate_statistics
            (run_simulations cfg9 (fun _ _ => 99 / 100))).2.2.2 : ℚ)
          / (cfg9.num_simulations.toNat : ℚ)) * 100 ∧
    0 ≤ (calculate_statistics
          (run_simulations cfg9 (fun _ _ => 99 / 100))).2.2.1 ∧
    (calculate_statistics
        (run_simulations cfg9 (fun _ _ => 99 / 100))).2.2.1 ≤ 100 :=
  statistics_contract cfg9 (fun _ _ => 99 / 100) (by norm_num [ValidCfg, cfg9])

/-- C8: one trial is a pure function of the configuration and the sample
stream — identical configurations and pointwise-identical streams yield
identical results (final stake and samples consumed). -/
theorem run_trial_deterministic (c₁ c₂ : GameConfig) (s₁ s₂ : ℕ → ℚ)
    (hc : c₁ = c₂) (hs : ∀ i, s₁ i = s₂ i) :
    run_one_simulation c₁ s₁ = run_one_simulation c₂ s₂ := by
  subst hc
  rw [funext hs]

/-- Witness for C8 at the scenario-3 configuration and stream. -/
theorem run_trial_deterministic_witness :
    run_one_simulation cfg9 lossSamples = run_one_simulation cfg9 lossSamples
    :=
  run_trial_deterministic cfg9 cfg9 lossSamples lossSamples rfl fun _ => rfl

/-- C9: with stake 100, two games, switch point 0 and forced losses, game 1
bets `100 / 2 = 50` leaving 50, game 2 bets `50 / 1 = 50` leaving 0, and the
trial returns exactly `0` having consumed both samples. -/
theorem concrete_scenario_three :
    ValidCfg cfg9 ∧
    calculate_bet cfg9 100 2 = 50 ∧
    rawStake cfg9 lossSamples 1 = 50 ∧
    calculate_bet cfg9 50 1 = 50 ∧
    rawStake cfg9 lossSamples 2 = 0 ∧
    run_one_simulation cfg9 lossSamples = (0, 2) := by
  refine ⟨by norm_num [ValidCfg, cfg9], ?_, ?_, ?_, ?_, ?_⟩ <;>
    norm_num [run_one_simulation, runAux, rawStake, stepStake, calculate_bet,
      cfg9, lossSamples]

/-- C10: validation places no constraint on `strategy_switch_point`: if a
configuration is valid, so is the same configuration with the switch point
replaced by any integer (negative or larger than `total_games` included),
and the simulator is constructed holding that switch point unchanged. -/
theorem switch_point_unconstrained (c : GameConfig) (ssp : ℤ)
    (hv : ValidCfg c) :
    ValidCfg { c with strategy_switch_point := ssp } ∧
    GameConfig.validate { c with strategy_switch_point := ssp }
      = Except.ok () ∧
    BettingSimulator.make { c with strategy_switch_point := ssp }
      = Except.ok ⟨{ c with strategy_switch_point := ssp }⟩ ∧
    ({ c with strategy_switch_point := ssp } :
        GameConfig).strategy_switch_point = ssp := by
  have hv' : ValidCfg { c with strategy_switch_point := ssp } := hv
  have hok := (validate_ok_iff _).mpr hv'
  refine ⟨hv', hok, ?_, rfl⟩
  simp [BettingSimulator.make, hok]

/-- Witness for C10: a negative switch point `-5` passes validation. -/
theorem switch_point_unconstrained_witness :
    ValidCfg { cfg9 with strategy_switch_point := -5 } ∧
    GameConfig.validate { cfg9 with strategy_switch_point := -5 }
      = Except.ok () ∧
    BettingSimulator.make { cfg9 with strategy_switch_point := -5 }
      = Except.ok ⟨{ cfg9 with strategy_switch_point := -5 }⟩ ∧
    ({ cfg9 with strategy_switch_point := -5 } :
        GameConfig).strategy_switch_point = -5 :=
  switch_point_unconstrained cfg9 (-5) (by norm_num [ValidCfg, cfg9])

end BettingGame
